import Mathlib

set_option maxRecDepth 40000

/-!
Shallow embedding of the EchoMind decision-analysis app (`streamlit_app.py`).

The app scores two textual options on three metrics (happiness, stress,
regret), each an integer percentage.  Two scorers exist: `rule_analyze`
counts fixed keyword substrings, and `model_analyze` remaps the label
probabilities of an external emotion classifier through a fixed weight
table.  The classifier is modelled as an oracle parameter: an optional
function from the (length-truncated) input characters to either a failure
(a Python exception) or a list of result lists of (label, probability)
pairs; probabilities (Python floats) are modelled as rationals.
-/

namespace EchoMind

/-- The fixed keyword vocabulary `RULES["positive"]` from the source. -/
def RULES_positive : List String :=
  ["growth", "opportunity", "love", "learn", "improve", "benefit", "success", "comfortable", "excited"]

/-- The fixed keyword vocabulary `RULES["negative"]` from the source. -/
def RULES_negative : List String :=
  ["stress", "pressure", "fear", "risk", "loss", "anxiety", "difficult", "hard", "lonely"]

/-- The fixed keyword vocabulary `RULES["regret"]` from the source. -/
def RULES_regret : List String :=
  ["miss", "chance", "what if", "maybe", "doubt", "later", "regret", "should have"]

/-- Character data of a string, lower-cased character by character
(Python's `text.lower()` on the texts this app handles). -/
def lowerData (s : String) : List Char :=
  s.data.map Char.toLower

/-- Python's substring containment `w in t`, as a boolean on character lists. -/
def hasSub (w : String) (t : List Char) : Bool :=
  decide (w.data <:+: t)

/-- The keyword scorer `rule_analyze`: lower-case the text, count for each
category how many vocabulary entries occur as substrings, multiply by 20,
cap at 100.  Returns (happiness, stress, regret). -/
def rule_analyze (text : String) : Nat × Nat × Nat :=
  let t := lowerData text
  let happy := (RULES_positive.countP (fun w => hasSub w t)) * 20
  let stress := (RULES_negative.countP (fun w => hasSub w t)) * 20
  let regret := (RULES_regret.countP (fun w => hasSub w t)) * 20
  (min happy 100, min stress 100, min regret 100)

/-- The three output metrics. -/
inductive Metric where
  | happiness
  | stress
  | regret
deriving DecidableEq

/-- The fixed weight table `EMOTION_TO_SCORES`: classifier label to
(target metric, weight). -/
def EMOTION_TO_SCORES : List (String × Metric × ℚ) :=
  [("joy", (Metric.happiness, 1)),
   ("love", (Metric.happiness, 9/10)),
   ("optimism", (Metric.happiness, 8/10)),
   ("admiration", (Metric.happiness, 6/10)),
   ("anger", (Metric.stress, 1)),
   ("fear", (Metric.stress, 9/10)),
   ("sadness", (Metric.regret, 9/10)),
   ("disgust", (Metric.stress, 7/10)),
   ("surprise", (Metric.happiness, 4/10)),
   ("neutral", (Metric.happiness, 2/10))]

/-- Python's `label in EMOTION_TO_SCORES` dict lookup (keys are distinct, so
first-match lookup agrees with the dict). -/
def lookupEmotion (label : String) : Option (Metric × ℚ) :=
  (EMOTION_TO_SCORES.find? (fun e => e.1 == label)).map (fun e => e.2)

/-- One classifier result item: an emotion label with its probability,
Python's `{"label": ..., "score": ...}`. -/
structure LabelScore where
  label : String
  score : ℚ
deriving DecidableEq

/-- The external classifier oracle: maps the submitted characters to either
a raised exception (modelled as `Except.error ()`) or the pipeline output,
a list of per-input lists of (label, probability) items. -/
def Pipe : Type := List Char → Except Unit (List (List LabelScore))

/-- Python's `int(...)` applied to an exact rational: truncation toward zero. -/
def pyInt (q : ℚ) : Int :=
  Int.tdiv q.num q.den

/-- One iteration of the accumulation loop in `model_analyze`: look up the
lower-cased label; add `score * weight` to the mapped metric's total, or
`score * 0.1` to happiness when the label is unmapped. -/
def step (acc : ℚ × ℚ × ℚ) (item : LabelScore) : ℚ × ℚ × ℚ :=
  match lookupEmotion (String.mk (lowerData item.label)) with
  | some (Metric.happiness, w) => (acc.1 + item.score * w, acc.2.1, acc.2.2)
  | some (Metric.stress, w) => (acc.1, acc.2.1 + item.score * w, acc.2.2)
  | some (Metric.regret, w) => (acc.1, acc.2.1, acc.2.2 + item.score * w)
  | none => (acc.1 + item.score * (1/10), acc.2.1, acc.2.2)

/-- The model scorer `model_analyze`.  `emotion_pipe = none` models a failed
model load; a pipe error models an exception caught by the `try`; an empty
output list models the `IndexError` of `out[0]`, likewise caught.  Otherwise
the totals are accumulated, scaled by 100, truncated and capped at 100. -/
def model_analyze (emotion_pipe : Option Pipe) (text : String) : Option (Int × Int × Int) :=
  match emotion_pipe with
  | none => none
  | some pipe =>
    match pipe (text.data.take 512) with
    | Except.error _ => none
    | Except.ok [] => none
    | Except.ok (scores :: _) =>
      let totals := scores.foldl step (0, 0, 0)
      some (min (pyInt (totals.1 * 100)) 100,
            min (pyInt (totals.2.1 * 100)) 100,
            min (pyInt (totals.2.2 * 100)) 100)

/-- Provenance tag: which strategy produced a displayed score triple. -/
inductive Tag where
  | modelBased
  | ruleBased
deriving DecidableEq

/-- Coerce the keyword scorer's natural-number triple into the integer
score shape shared with the model scorer. -/
def intTriple (t : Nat × Nat × Nat) : Int × Int × Int :=
  ((t.1 : Int), (t.2.1 : Int), (t.2.2 : Int))

/-- Python's `not s.strip()`: the string is empty or all whitespace. -/
def isBlank (s : String) : Bool :=
  s.data.all Char.isWhitespace

/-- The per-option selection in the submission handler:
`model_analyze(option) if option.strip() else None`, then fall back to
`rule_analyze` (tagged rule-based) when that is `None`, else tag the model
result model-based. -/
def selectScores (pipe : Option Pipe) (text : String) : (Int × Int × Int) × Tag :=
  let m := if isBlank text then none else model_analyze pipe text
  match m with
  | none => (intTriple (rule_analyze text), Tag.ruleBased)
  | some t => (t, Tag.modelBased)

/-- The submission handler: reject (no scoring) when the decision is blank
or both options are blank; otherwise score and tag both options. -/
def analyzeSubmission (pipe : Option Pipe) (decision optionA optionB : String) :
    Option (((Int × Int × Int) × Tag) × ((Int × Int × Int) × Tag)) :=
  if isBlank decision || (isBlank optionA && isBlank optionB) then none
  else some (selectScores pipe optionA, selectScores pipe optionB)

/-- The three suggestion outcomes. -/
inductive Suggestion where
  | preferA
  | preferB
  | tie
deriving DecidableEq

/-- The final suggestion: compare the regret components only; strictly
lower regret wins, otherwise the tie message. -/
def suggestion (a b : Int × Int × Int) : Suggestion :=
  if a.2.2 < b.2.2 then Suggestion.preferA
  else if b.2.2 < a.2.2 then Suggestion.preferB
  else Suggestion.tie

/-- Spec-side description of one (label, probability) pair's contribution to
a metric: `probability × weight` when the case-insensitive lookup of the
label maps to that metric, `probability × 0.1` to happiness when the label
is unmapped, and zero otherwise. -/
def contribution (m : Metric) (item : LabelScore) : ℚ :=
  match lookupEmotion (String.mk (lowerData item.label)) with
  | some (k, w) => if k = m then item.score * w else 0
  | none => if m = Metric.happiness then item.score * (1/10) else 0

/-- Spec-side total for one metric: the sum of the contributions of every
returned (label, probability) pair. -/
def specTotal (m : Metric) (scores : List LabelScore) : ℚ :=
  (scores.map (contribution m)).sum

/-- A score component within the documented display range. -/
def inRange (x : Int) : Prop := 0 ≤ x ∧ x ≤ 100

/-- A classifier fixed to the model's seven-label vocabulary with
probability 0.8 on "joy", 0.1 on "sadness" and 0.0 elsewhere. -/
def joyPipe : Pipe := fun _ =>
  Except.ok [[⟨"joy", 8/10⟩, ⟨"sadness", 1/10⟩, ⟨"anger", 0⟩, ⟨"fear", 0⟩,
              ⟨"disgust", 0⟩, ⟨"surprise", 0⟩, ⟨"neutral", 0⟩]]

/-- The result list returned by `joyPipe` for any input. -/
def joyScores : List LabelScore :=
  [⟨"joy", 8/10⟩, ⟨"sadness", 1/10⟩, ⟨"anger", 0⟩, ⟨"fear", 0⟩,
   ⟨"disgust", 0⟩, ⟨"surprise", 0⟩, ⟨"neutral", 0⟩]

/-- A classifier returning an out-of-range negative probability for "joy". -/
def negPipe : Pipe := fun _ => Except.ok [[⟨"joy", -2⟩]]

/-- A classifier whose call always raises (the caught-exception path). -/
def errPipe : Pipe := fun _ => Except.error ()

/-- A classifier returning an empty label list for its single result. -/
def zeroPipe : Pipe := fun _ => Except.ok [[]]

/-- A classifier returning an empty output list, so that `out[0]` raises. -/
def emptyPipe : Pipe := fun _ => Except.ok []

end EchoMind

namespace EchoMind

lemma step_joy (acc : ℚ × ℚ × ℚ) (p : ℚ) :
    step acc ⟨"joy", p⟩ = (acc.1 + p * 1, acc.2.1, acc.2.2) := rfl

lemma step_sadness (acc : ℚ × ℚ × ℚ) (p : ℚ) :
    step acc ⟨"sadness", p⟩ = (acc.1, acc.2.1, acc.2.2 + p * (9/10)) := rfl

lemma step_anger (acc : ℚ × ℚ × ℚ) (p : ℚ) :
    step acc ⟨"anger", p⟩ = (acc.1, acc.2.1 + p * 1, acc.2.2) := rfl

lemma step_fear (acc : ℚ × ℚ × ℚ) (p : ℚ) :
    step acc ⟨"fear", p⟩ = (acc.1, acc.2.1 + p * (9/10), acc.2.2) := rfl

lemma step_disgust (acc : ℚ × ℚ × ℚ) (p : ℚ) :
    step acc ⟨"disgust", p⟩ = (acc.1, acc.2.1 + p * (7/10), acc.2.2) := rfl

lemma step_surprise (acc : ℚ × ℚ × ℚ) (p : ℚ) :
    step acc ⟨"surprise", p⟩ = (acc.1 + p * (4/10), acc.2.1, acc.2.2) := rfl

lemma step_neutral (acc : ℚ × ℚ × ℚ) (p : ℚ) :
    step acc ⟨"neutral", p⟩ = (acc.1 + p * (2/10), acc.2.1, acc.2.2) := rfl

lemma pyInt_intCast (n : ℤ) : pyInt ((n : ℤ) : ℚ) = n := by
  simp [pyInt, Rat.num_intCast, Rat.den_intCast, Int.tdiv_one]

lemma model_analyze_ok (p : Pipe) (text : String) (scores : List LabelScore)
    (rest : List (List LabelScore))
    (h : p (text.data.take 512) = Except.ok (scores :: rest)) :
    model_analyze (some p) text =
      some (min (pyInt ((scores.foldl step (0, 0, 0)).1 * 100)) 100,
            min (pyInt ((scores.foldl step (0, 0, 0)).2.1 * 100)) 100,
            min (pyInt ((scores.foldl step (0, 0, 0)).2.2 * 100)) 100) := by
  simp [model_analyze, h]

lemma foldl_step_eq (scores : List LabelScore) : ∀ acc : ℚ × ℚ × ℚ,
    scores.foldl step acc =
      (acc.1 + specTotal Metric.happiness scores,
       acc.2.1 + specTotal Metric.stress scores,
       acc.2.2 + specTotal Metric.regret scores) := by
  induction scores with
  | nil => intro acc; simp [specTotal]
  | cons item rest ih =>
    intro acc
    rw [List.foldl_cons, ih]
    simp only [specTotal, List.map_cons, List.sum_cons]
    rcases h : lookupEmotion (String.mk (lowerData item.label)) with _ | ⟨k, w⟩
    · simp only [step, contribution, h]
      refine Prod.ext ?_ (Prod.ext ?_ ?_) <;> (simp; try ring)
    · cases k <;>
        · simp only [step, contribution, h]
          refine Prod.ext ?_ (Prod.ext ?_ ?_) <;> (simp; try ring)

lemma lookup_joy : lookupEmotion (String.mk (lowerData "joy")) = some (Metric.happiness, 1) := rfl

lemma lookup_sadness :
    lookupEmotion (String.mk (lowerData "sadness")) = some (Metric.regret, 9/10) := rfl

lemma lookup_anger : lookupEmotion (String.mk (lowerData "anger")) = some (Metric.stress, 1) := rfl

lemma lookup_fear : lookupEmotion (String.mk (lowerData "fear")) = some (Metric.stress, 9/10) := rfl

lemma lookup_disgust :
    lookupEmotion (String.mk (lowerData "disgust")) = some (Metric.stress, 7/10) := rfl

lemma lookup_surprise :
    lookupEmotion (String.mk (lowerData "surprise")) = some (Metric.happiness, 4/10) := rfl

lemma lookup_neutral :
    lookupEmotion (String.mk (lowerData "neutral")) = some (Metric.happiness, 2/10) := rfl

lemma lookup_weight_nonneg (label : String) (k : Metric) (w : ℚ)
    (h : lookupEmotion label = some (k, w)) : 0 ≤ w := by
  rcases hf : EMOTION_TO_SCORES.find? (fun e => e.1 == label) with _ | e
  · rw [lookupEmotion, hf] at h
    exact Option.noConfusion h
  · rw [lookupEmotion, hf] at h
    simp only [Option.map_some', Option.some.injEq] at h
    have hmem := List.mem_of_find?_eq_some hf
    have hw : w = e.2.2 := by rw [h]
    rw [hw]
    fin_cases hmem <;> norm_num

lemma contribution_nonneg (m : Metric) (item : LabelScore) (h : 0 ≤ item.score) :
    0 ≤ contribution m item := by
  rcases hl : lookupEmotion (String.mk (lowerData item.label)) with _ | ⟨k, w⟩
  · simp only [contribution, hl]
    split_ifs
    · positivity
    · exact le_refl (0 : ℚ)
  · simp only [contribution, hl]
    split_ifs
    · exact mul_nonneg h (lookup_weight_nonneg _ _ _ hl)
    · exact le_refl (0 : ℚ)

lemma specTotal_nonneg (m : Metric) (scores : List LabelScore)
    (h : ∀ item ∈ scores, 0 ≤ item.score) : 0 ≤ specTotal m scores := by
  apply List.sum_nonneg
  intro x hx
  obtain ⟨item, hitem, rfl⟩ := List.mem_map.mp hx
  exact contribution_nonneg m item (h item hitem)

lemma pyInt_nonneg (q : ℚ) (h : 0 ≤ q) : 0 ≤ pyInt q :=
  Int.tdiv_nonneg (Rat.num_nonneg.mpr h) (Int.natCast_nonneg _)

lemma toLower_whitespace {c : Char} (h : c.isWhitespace = true) : Char.toLower c = c := by
  simp [Char.isWhitespace] at h
  rcases h with ((h | h) | h) | h <;> subst h <;> rfl

lemma blank_no_hit (a : String) (h : isBlank a = true) (w : String)
    (hw : w.data.any (fun c => !c.isWhitespace) = true) :
    hasSub w (lowerData a) = false := by
  rw [hasSub, decide_eq_false_iff_not]
  intro hinf
  obtain ⟨c, hcmem, hcw⟩ := List.any_eq_true.mp hw
  have hc2 : c ∈ lowerData a := hinf.subset hcmem
  obtain ⟨c', hc', rfl⟩ := List.mem_map.mp hc2
  have hws : c'.isWhitespace = true := List.all_eq_true.mp h c' hc'
  rw [toLower_whitespace hws] at hcw
  simp [hws] at hcw

lemma blank_rule_analyze (a : String) (h : isBlank a = true) : rule_analyze a = (0, 0, 0) := by
  have hp : ∀ w ∈ RULES_positive, w.data.any (fun c => !c.isWhitespace) = true := by decide
  have hn : ∀ w ∈ RULES_negative, w.data.any (fun c => !c.isWhitespace) = true := by decide
  have hr : ∀ w ∈ RULES_regret, w.data.any (fun c => !c.isWhitespace) = true := by decide
  have cp : RULES_positive.countP (fun w => hasSub w (lowerData a)) = 0 := by
    rw [List.countP_eq_zero]
    intro w hw
    simp [blank_no_hit a h w (hp w hw)]
  have cn : RULES_negative.countP (fun w => hasSub w (lowerData a)) = 0 := by
    rw [List.countP_eq_zero]
    intro w hw
    simp [blank_no_hit a h w (hn w hw)]
  have cr : RULES_regret.countP (fun w => hasSub w (lowerData a)) = 0 := by
    rw [List.countP_eq_zero]
    intro w hw
    simp [blank_no_hit a h w (hr w hw)]
  simp [rule_analyze, cp, cn, cr]

lemma min_mul20_mem (n : Nat) : min (n * 20) 100 ∈ ([0, 20, 40, 60, 80, 100] : List Nat) := by
  rcases Nat.lt_or_ge n 6 with h | h
  · interval_cases n <;> decide
  · have h100 : min (n * 20) 100 = 100 := Nat.min_eq_right (by omega)
    rw [h100]
    decide

/-- C3: for every string, `rule_analyze` lower-cases the text, counts for
each of the three fixed categories how many vocabulary entries occur as
substrings (each entry at most once), multiplies each count by 20 and caps
at 100; the empty text yields (0,0,0) and "I feel anxious about the risk"
yields happiness 0, stress 20, regret 0. -/
theorem C3_keyword_functional :
    (∀ text : String,
      rule_analyze text =
        (min ((RULES_positive.filter (fun w => decide (w.data <:+: lowerData text))).length * 20) 100,
         min ((RULES_negative.filter (fun w => decide (w.data <:+: lowerData text))).length * 20) 100,
         min ((RULES_regret.filter (fun w => decide (w.data <:+: lowerData text))).length * 20) 100)) ∧
    rule_analyze "" = (0, 0, 0) ∧
    rule_analyze "I feel anxious about the risk" = (0, 20, 0) := by
  refine ⟨fun text => ?_, by decide, by decide⟩
  simp [rule_analyze, hasSub, List.countP_eq_length_filter]

/-- C9: every component of the keyword scorer's output is one of
0, 20, 40, 60, 80, 100, and a category with more than five hits still
clamps to exactly 100 (the quoted text has nine positive hits). -/
theorem C9_keyword_range :
    (∀ text : String,
      (rule_analyze text).1 ∈ ([0, 20, 40, 60, 80, 100] : List Nat) ∧
      (rule_analyze text).2.1 ∈ ([0, 20, 40, 60, 80, 100] : List Nat) ∧
      (rule_analyze text).2.2 ∈ ([0, 20, 40, 60, 80, 100] : List Nat)) ∧
    rule_analyze "growth opportunity love learn improve benefit success comfortable excited" =
      (100, 0, 0) := by
  refine ⟨fun text => ?_, by decide⟩
  refine ⟨?_, ?_, ?_⟩ <;> simp only [rule_analyze] <;> exact min_mul20_mem _

/-- C10: the keyword scorer is monotone under substring extension: if the
characters of `s` form a contiguous substring of those of `t`, every
component of `rule_analyze s` is at most the corresponding component of
`rule_analyze t`. -/
theorem C10_keyword_monotone : ∀ s t : String, s.data <:+: t.data →
    (rule_analyze s).1 ≤ (rule_analyze t).1 ∧
    (rule_analyze s).2.1 ≤ (rule_analyze t).2.1 ∧
    (rule_analyze s).2.2 ≤ (rule_analyze t).2.2 := by
  intro s t hst
  have hlow : lowerData s <:+: lowerData t := List.IsInfix.map Char.toLower hst
  have key : ∀ words : List String,
      words.countP (fun w => hasSub w (lowerData s)) ≤
        words.countP (fun w => hasSub w (lowerData t)) := by
    intro words
    apply List.countP_mono_left
    intro w _ hw
    simp only [hasSub, decide_eq_true_eq] at hw ⊢
    exact hw.trans hlow
  simp only [rule_analyze]
  exact ⟨min_le_min (mul_le_mul_right' (key _) 20) (le_refl 100),
         min_le_min (mul_le_mul_right' (key _) 20) (le_refl 100),
         min_le_min (mul_le_mul_right' (key _) 20) (le_refl 100)⟩

/-- C10 witness: the hypothesis and conclusion at the concrete pair
"risk" and "the risk". -/
theorem C10_keyword_monotone_witness :
    ("risk".data <:+: "the risk".data) ∧
    ((rule_analyze "risk").1 ≤ (rule_analyze "the risk").1 ∧
     (rule_analyze "risk").2.1 ≤ (rule_analyze "the risk").2.1 ∧
     (rule_analyze "risk").2.2 ≤ (rule_analyze "the risk").2.2) :=
  ⟨by decide, C10_keyword_monotone "risk" "the risk" (by decide)⟩

/-- C7: the suggestion compares only the regret components: A is preferred
exactly when its regret is strictly lower, B exactly when B's is strictly
lower, tie exactly on equal regret; happiness and stress play no role. -/
theorem C7_suggestion_rule : ∀ a b : Int × Int × Int,
    (suggestion a b = Suggestion.preferA ↔ a.2.2 < b.2.2) ∧
    (suggestion a b = Suggestion.preferB ↔ b.2.2 < a.2.2) ∧
    (suggestion a b = Suggestion.tie ↔ a.2.2 = b.2.2) ∧
    suggestion a b = suggestion (0, 0, a.2.2) (0, 0, b.2.2) := by
  intro a b
  simp only [suggestion]
  split_ifs with h1 h2 <;>
    refine ⟨?_, ?_, ?_, ?_⟩ <;> simp_all <;> omega

/-- C5: the model scorer never propagates a failure: a missing classifier
handle, a raising classifier call, and an empty classifier output each
yield the unavailable result `none`. -/
theorem C5_no_raise :
    (∀ text : String, model_analyze none text = none) ∧
    (∀ (p : Pipe) (text : String), p (text.data.take 512) = Except.error () →
      model_analyze (some p) text = none) ∧
    (∀ (p : Pipe) (text : String), p (text.data.take 512) = Except.ok [] →
      model_analyze (some p) text = none) := by
  refine ⟨fun _ => rfl, fun p text h => ?_, fun p text h => ?_⟩ <;> simp [model_analyze, h]

/-- C5 witness: the three failure modes at concrete classifiers and input. -/
theorem C5_no_raise_witness :
    model_analyze none "any" = none ∧
    model_analyze (some errPipe) "any" = none ∧
    model_analyze (some emptyPipe) "any" = none :=
  ⟨C5_no_raise.1 "any", C5_no_raise.2.1 errPipe "any" rfl, C5_no_raise.2.2 emptyPipe "any" rfl⟩

/-- C8: the model scorer depends only on the first 512 characters of its
input: scoring a text equals scoring its 512-character prefix, for every
classifier behaviour. -/
theorem C8_truncation : ∀ (pipe : Option Pipe) (text : String),
    model_analyze pipe text = model_analyze pipe (String.mk (text.data.take 512)) := by
  intro pipe text
  cases pipe with
  | none => rfl
  | some p =>
    have h : (String.mk (text.data.take 512)).data.take 512 = text.data.take 512 := by
      apply List.take_of_length_le
      rw [List.length_take]
      exact min_le_left _ _
    simp only [model_analyze, h]

/-- C4: whenever the classifier responds with a non-empty output, the model
scorer's result is exactly: for each metric, the sum over all returned
(label, probability) pairs of `probability × weight` (weight from the
case-insensitive table lookup, or 0.1 toward happiness for unmapped
labels), scaled by 100, truncated toward zero and capped at 100. -/
theorem C4_model_mapping : ∀ (p : Pipe) (text : String) (scores : List LabelScore)
    (rest : List (List LabelScore)),
    p (text.data.take 512) = Except.ok (scores :: rest) →
    model_analyze (some p) text =
      some (min (pyInt (specTotal Metric.happiness scores * 100)) 100,
            min (pyInt (specTotal Metric.stress scores * 100)) 100,
            min (pyInt (specTotal Metric.regret scores * 100)) 100) := by
  intro p text scores rest h
  rw [model_analyze_ok p text scores rest h, foldl_step_eq scores (0, 0, 0)]
  simp

/-- C4 witness: a classifier answering joy 0.8, sadness 0.1 and 0.0 on the
other labels yields happiness 80, stress 0, regret 9. -/
theorem C4_model_mapping_witness :
    model_analyze (some joyPipe) "any input" = some (80, 0, 9) := by
  rw [C4_model_mapping joyPipe "any input" joyScores [] rfl]
  have hh : specTotal Metric.happiness joyScores * 100 = ((80 : ℤ) : ℚ) := by
    simp only [specTotal, joyScores, contribution, List.map_cons, List.map_nil, lookup_joy,
      lookup_sadness, lookup_anger, lookup_fear, lookup_disgust, lookup_surprise, lookup_neutral,
      List.sum_cons, List.sum_nil]
    simp only [reduceCtorEq, if_false, reduceIte]
    norm_num
  have hs : specTotal Metric.stress joyScores * 100 = ((0 : ℤ) : ℚ) := by
    simp only [specTotal, joyScores, contribution, List.map_cons, List.map_nil, lookup_joy,
      lookup_sadness, lookup_anger, lookup_fear, lookup_disgust, lookup_surprise, lookup_neutral,
      List.sum_cons, List.sum_nil]
    simp only [reduceCtorEq, if_false, reduceIte]
    norm_num
  have hr : specTotal Metric.regret joyScores * 100 = ((9 : ℤ) : ℚ) := by
    simp only [specTotal, joyScores, contribution, List.map_cons, List.map_nil, lookup_joy,
      lookup_sadness, lookup_anger, lookup_fear, lookup_disgust, lookup_surprise, lookup_neutral,
      List.sum_cons, List.sum_nil]
    simp only [reduceCtorEq, if_false, reduceIte]
    norm_num
  rw [hh, hs, hr, pyInt_intCast, pyInt_intCast, pyInt_intCast]
  decide

/-- C6: for a non-blank option, an unavailable model result makes the
displayed scores the keyword scorer's result tagged rule-based, and a
model triple is displayed as-is tagged model-based; with no classifier
handle the rule-based fallback always applies. -/
theorem C6_selector : ∀ (pipe : Option Pipe) (text : String), isBlank text = false →
    (model_analyze pipe text = none →
      selectScores pipe text = (intTriple (rule_analyze text), Tag.ruleBased)) ∧
    (∀ t, model_analyze pipe text = some t →
      selectScores pipe text = (t, Tag.modelBased)) ∧
    (pipe = none →
      selectScores pipe text = (intTriple (rule_analyze text), Tag.ruleBased)) := by
  intro pipe text hb
  refine ⟨fun hm => ?_, fun t hm => ?_, fun hp => ?_⟩
  · simp [selectScores, hb, hm]
  · simp [selectScores, hb, hm]
  · subst hp
    simp [selectScores, hb, model_analyze]

/-- C6 witness: with no classifier handle and the non-blank option "risk",
the displayed result is the keyword result tagged rule-based. -/
theorem C6_selector_witness :
    isBlank "risk" = false ∧
    selectScores none "risk" = (intTriple (rule_analyze "risk"), Tag.ruleBased) :=
  ⟨by decide, (C6_selector none "risk" (by decide)).1 rfl⟩

/-- C1 counterexample: a classifier response with a negative probability
(label "joy", probability -2) drives a model score component below 0: the
code caps only the upper end, so the claimed lower bound fails. -/
theorem C1_counterexample :
    model_analyze (some negPipe) "option text" = some (-200, 0, 0) ∧ ¬ (0 ≤ (-200 : ℤ)) := by
  constructor
  · rw [model_analyze_ok negPipe "option text" [⟨"joy", -2⟩] [] rfl]
    have hf : List.foldl step ((0 : ℚ), (0 : ℚ), (0 : ℚ)) [⟨"joy", -2⟩] = (-2, 0, 0) := by
      rw [List.foldl_cons, List.foldl_nil, step_joy]
      norm_num
    rw [hf]
    have h1 : ((-2 : ℚ)) * 100 = ((-200 : ℤ) : ℚ) := by norm_num
    have h2 : ((0 : ℚ)) * 100 = ((0 : ℤ) : ℚ) := by norm_num
    rw [h1, h2, pyInt_intCast, pyInt_intCast]
    decide
  · decide

/-- C1 amended: every keyword score component is in [0,100]; every model
score component is capped at 100; and the model score components are also
bounded below by 0 whenever all returned probabilities are nonnegative
(the code clamps only the upper end, so a negative probability can push a
component below 0). -/
theorem C1_amended_bounds :
    (∀ text : String,
      inRange (intTriple (rule_analyze text)).1 ∧
      inRange (intTriple (rule_analyze text)).2.1 ∧
      inRange (intTriple (rule_analyze text)).2.2) ∧
    (∀ (pipe : Option Pipe) (text : String) (t : Int × Int × Int),
      model_analyze pipe text = some t → t.1 ≤ 100 ∧ t.2.1 ≤ 100 ∧ t.2.2 ≤ 100) ∧
    (∀ (p : Pipe) (text : String) (scores : List LabelScore)
      (rest : List (List LabelScore)) (t : Int × Int × Int),
      p (text.data.take 512) = Except.ok (scores :: rest) →
      (∀ item ∈ scores, 0 ≤ item.score) →
      model_analyze (some p) text = some t →
      inRange t.1 ∧ inRange t.2.1 ∧ inRange t.2.2) := by
  refine ⟨fun text => ?_, fun pipe text t hm => ?_, fun p text scores rest t hq hnn hm => ?_⟩
  · simp only [intTriple, inRange, rule_analyze]
    refine ⟨⟨?_, ?_⟩, ⟨?_, ?_⟩, ⟨?_, ?_⟩⟩ <;>
      first
        | exact Int.natCast_nonneg _
        | exact_mod_cast Nat.min_le_right _ 100
  · rcases pipe with _ | p
    · exact absurd hm (by simp [model_analyze])
    · rcases hq : p (text.data.take 512) with e | out
      · rw [model_analyze, hq] at hm
        exact Option.noConfusion hm
      · rcases out with _ | ⟨scores, rest⟩
        · rw [model_analyze, hq] at hm
          exact Option.noConfusion hm
        · rw [model_analyze_ok p text scores rest hq] at hm
          rcases Option.some.inj hm with rfl
          exact ⟨min_le_right _ _, min_le_right _ _, min_le_right _ _⟩
  · rw [model_analyze_ok p text scores rest hq, foldl_step_eq scores (0, 0, 0)] at hm
    rcases Option.some.inj hm with rfl
    have hb : ∀ m : Metric, 0 ≤ min (pyInt (((0:ℚ) + specTotal m scores) * 100)) 100 := by
      intro m
      refine le_min (pyInt_nonneg _ ?_) (by norm_num)
      have := specTotal_nonneg m scores hnn
      positivity
    exact ⟨⟨hb Metric.happiness, min_le_right _ _⟩,
           ⟨hb Metric.stress, min_le_right _ _⟩,
           ⟨hb Metric.regret, min_le_right _ _⟩⟩

/-- C1 witness: the hypotheses of the amended theorem at a classifier
returning an empty (all probabilities absent, trivially nonnegative)
response, whose score is (0,0,0), together with the resulting bounds. -/
theorem C1_amended_bounds_witness :
    zeroPipe ("t".data.take 512) = Except.ok ([] :: []) ∧
    (∀ item ∈ ([] : List LabelScore), 0 ≤ item.score) ∧
    model_analyze (some zeroPipe) "t" = some (0, 0, 0) ∧
    ((0 : ℤ) ≤ 100 ∧ (0 : ℤ) ≤ 100 ∧ (0 : ℤ) ≤ 100) ∧
    (inRange (0 : ℤ) ∧ inRange (0 : ℤ) ∧ inRange (0 : ℤ)) := by
  have h1 : zeroPipe ("t".data.take 512) = Except.ok ([] :: []) := rfl
  have h2 : ∀ item ∈ ([] : List LabelScore), 0 ≤ item.score := by simp
  have h3 : model_analyze (some zeroPipe) "t" = some (0, 0, 0) := by
    rw [model_analyze_ok zeroPipe "t" [] [] h1, List.foldl_nil]
    have h0 : ((0 : ℚ), (0 : ℚ), (0 : ℚ)).1 * 100 = ((0 : ℤ) : ℚ) := by norm_num
    rw [h0, pyInt_intCast]
    decide
  exact ⟨h1, h2, h3,
    C1_amended_bounds.2.1 (some zeroPipe) "t" (0, 0, 0) h3,
    C1_amended_bounds.2.2 zeroPipe "t" [] [] (0, 0, 0) h1 h2 h3⟩

/-- C2 counterexample: an accepted submission with a blank option A: the
handler still invokes the keyword scorer on the blank text and displays
its result (0,0,0) with a rule-based provenance tag, contradicting the
claim that no scorer runs and no tag is produced for a blank option. -/
theorem C2_counterexample :
    analyzeSubmission none "job choice" "" "learn and improve" =
      some (((0, 0, 0), Tag.ruleBased), ((40, 0, 0), Tag.ruleBased)) := by decide

/-- C2 amended: for accepted submissions a blank option is never given to
the model scorer (its displayed result does not depend on the classifier),
but the keyword scorer is invoked on it: the blank option is displayed
with the keyword result, which is (0,0,0), and a rule-based tag. -/
theorem C2_amended_blank_option : ∀ (pipe : Option Pipe) (decision a b : String),
    isBlank decision = false →
    (isBlank a = true → isBlank b = false →
      analyzeSubmission pipe decision a b =
        some ((intTriple (rule_analyze a), Tag.ruleBased), selectScores pipe b)) ∧
    (isBlank a = false → isBlank b = true →
      analyzeSubmission pipe decision a b =
        some (selectScores pipe a, (intTriple (rule_analyze b), Tag.ruleBased))) ∧
    (isBlank a = true → rule_analyze a = (0, 0, 0)) := by
  intro pipe decision a b hd
  refine ⟨fun ha hb => ?_, fun ha hb => ?_, fun ha => blank_rule_analyze a ha⟩
  · have hsel : selectScores pipe a = (intTriple (rule_analyze a), Tag.ruleBased) := by
      simp [selectScores, ha]
    simp [analyzeSubmission, hd, ha, hb, hsel]
  · have hsel : selectScores pipe b = (intTriple (rule_analyze b), Tag.ruleBased) := by
      simp [selectScores, hb]
    simp [analyzeSubmission, hd, ha, hb, hsel]

/-- C2 witness: the amended behaviour at a concrete accepted submission
whose option A is blank, using a classifier that would answer. -/
theorem C2_amended_blank_option_witness :
    isBlank "job choice" = false ∧ isBlank "" = true ∧ isBlank "learn and improve" = false ∧
    analyzeSubmission (some joyPipe) "job choice" "" "learn and improve" =
      some ((intTriple (rule_analyze ""), Tag.ruleBased), selectScores (some joyPipe) "learn and improve") ∧
    rule_analyze "" = (0, 0, 0) := by
  have h := C2_amended_blank_option (some joyPipe) "job choice" "" "learn and improve" (by decide)
  exact ⟨by decide, by decide, by decide, h.1 (by decide) (by decide), h.2.2 (by decide)⟩

end EchoMind
